import Mathlib

set_option maxRecDepth 8000

/-!
Verification of the IP packet decoder in src/netpacket/src/ip/packet.rs.

Byte buffers are modelled as List Nat (each element one byte value).
Every Rust call outcome is modelled by RResult: Ok with a value, Err with
the io::Error message the source builds, or a panic with a message
(out-of-bounds indexing, unwrap on None, the unimplemented macro).
-/

/-- Outcome of a Rust function: an Ok value, an Err carrying the io::Error
message, or a panic carrying its message. -/
inductive RResult (α : Type) where
  | ok (val : α)
  | err (msg : String)
  | panic (msg : String)
  deriving DecidableEq

/-- True exactly on the Ok outcome. -/
def RResult.isOk {α : Type} : RResult α → Bool
  | .ok _ => true
  | _ => false

/-- Map over the Ok value, keeping Err and panic as they are: the
match-and-rewrap pattern of Packet::from_bytes, packet.rs lines 246-253. -/
def RResult.map {α β : Type} (f : α → β) : RResult α → RResult β
  | .ok a => .ok (f a)
  | .err e => .err e
  | .panic m => .panic m

/-- The match pattern of the source that continues on Ok and returns Err(e)
as-is (packet.rs lines 126-136 and 246-253); a panic propagates. -/
def resCase {α β : Type} (x : RResult α) (f : α → RResult β) : RResult β :=
  match x with
  | .ok a => f a
  | .err e => .err e
  | .panic m => .panic m

/-- The unwrap call on an Option: none panics, some continues. -/
def unwrapD {α β : Type} (x : Option α) (f : α → RResult β) : RResult β :=
  match x with
  | none => .panic ("unwrap on None")
  | some v => f v

/-- Binary digits, most significant first, of the width-8 binary rendering of
a byte value, digit characters 0 and 1 modelled as the numbers 0 and 1; this
is the string the source formats at packet.rs line 96 and in the accessors at
lines 173-190 before slicing character ranges out of it. -/
def bin8 (x : Nat) : List Nat :=
  [x / 128 % 2, x / 64 % 2, x / 32 % 2, x / 16 % 2, x / 8 % 2, x / 4 % 2, x / 2 % 2, x % 2]

/-- Binary digits, most significant first, of the width-16 binary rendering
of a u16 value. -/
def bin16 (x : Nat) : List Nat :=
  [x / 32768 % 2, x / 16384 % 2, x / 8192 % 2, x / 4096 % 2, x / 2048 % 2, x / 1024 % 2,
   x / 512 % 2, x / 256 % 2, x / 128 % 2, x / 64 % 2, x / 32 % 2, x / 16 % 2,
   x / 8 % 2, x / 4 % 2, x / 2 % 2, x % 2]

/-- from_str_radix with radix 2 on a slice of digit characters: fails (none)
on an empty slice or on a non-binary digit, otherwise returns the value read
most significant digit first. The unwrap that follows it in the source turns
none into a panic. -/
def from_str_radix_bin (ds : List Nat) : Option Nat :=
  if ds = [] then none
  else if ∀ d ∈ ds, d < 2 then some (ds.foldl (fun a d => 2 * a + d) 0)
  else none

/-- The IHL read: format the byte with width 8, slice characters 4..8, parse
as radix 2 (packet.rs line 96 and the ihl accessor at lines 173-175). -/
def ihl_of (x : Nat) : Option Nat := from_str_radix_bin ((bin8 x).drop 4)

/-- The dscp accessor computation: characters 0..6 of the 8-character binary
string (packet.rs lines 176-178). -/
def dscp_of (x : Nat) : Option Nat := from_str_radix_bin ((bin8 x).take 6)

/-- The ecn accessor computation: characters 6..8 of the 8-character binary
string (packet.rs lines 179-181). -/
def ecn_of (x : Nat) : Option Nat := from_str_radix_bin ((bin8 x).drop 6)

/-- The flags accessor computation: characters 0..3 of the 16-character
binary string (packet.rs lines 185-187). -/
def flags_of (x : Nat) : Option Nat := from_str_radix_bin ((bin16 x).take 3)

/-- The fragment_offset accessor computation: characters 3..16 of the
16-character binary string (packet.rs lines 188-190). -/
def fragment_offset_of (x : Nat) : Option Nat := from_str_radix_bin ((bin16 x).drop 3)

/-- The Ipv4Packet struct, packet.rs lines 44-59. The borrowed options and
payload spans are modelled as byte lists. -/
structure Ipv4Packet where
  version_ihl : Nat
  dscp_ecn : Nat
  total_length : Nat
  identification : Nat
  flags_fragment_offset : Nat
  time_to_live : Nat
  protocol : Nat
  header_checksum : Nat
  src_ip : Nat
  dst_ip : Nat
  options : Option (List Nat)
  payload : List Nat
  deriving DecidableEq

/-- The Ipv6Packet struct, packet.rs lines 65-75. -/
structure Ipv6Packet where
  version : Nat
  traffic_class : Nat
  flow_label : Nat
  payload_length : Nat
  next_header : Nat
  hoplimit : Nat
  src_ip : Nat
  dst_ip : Nat
  payload : List Nat
  deriving DecidableEq

/-- The Packet tagged union, packet.rs lines 79-82. -/
inductive Packet where
  | V4 (p : Ipv4Packet)
  | V6 (p : Ipv6Packet)
  deriving DecidableEq

/-- Ipv4Packet::min_size, packet.rs lines 166-168. -/
def Ipv4Packet.min_size : Nat := 20

/-- Modelled from the spec: Options::from_bytes, the OptionsParser for the
IPv4 options region. The source imports it as super::Options and its
defining file is not under src/. Per spec section 4.2 and section 2 the
options region is length-prefixed, the parser determines how many bytes the
options-plus-padding region occupies rounded up to a 4-byte boundary, fails
with Truncated when the declared region exceeds the available bytes, and
otherwise yields the consumed span, whose len() is the consumed length. -/
def Options.from_bytes (bytes : List Nat) : RResult (List Nat) :=
  match bytes with
  | [] => .err ("Truncated")
  | declared :: _ =>
    if bytes.length < (declared + 3) / 4 * 4 then .err ("Truncated")
    else .ok (bytes.take ((declared + 3) / 4 * 4))

/-- Lines 119-140 of packet.rs: compute the options value and the header
length from the parsed ihl. When ihl is at least 5 the buffer must hold at
least min_size + 2 bytes, Options::from_bytes runs on the slice from byte 20
on, and the buffer must hold the 20 fixed bytes plus the options length;
when ihl is below 5 the header is 20 bytes and there are no options. -/
def ipv4_parse_options (b : List Nat) (ihl : Nat) : RResult (Option (List Nat) × Nat) :=
  if 5 ≤ ihl then
    if b.length < Ipv4Packet.min_size + 2 then .err ("size error ...")
    else
      match Options.from_bytes (b.drop 20) with
      | .ok opts =>
        if b.length < Ipv4Packet.min_size + opts.length then .err ("size error ...")
        else .ok (some opts, 20 + opts.length)
      | .err e => .err e
      | .panic m => .panic m
  else .ok (none, 20)

/-- Ipv4Packet::from_bytes, packet.rs lines 87-160. The big-endian field
reads at fixed offsets (source lines 98-117) touch only bytes 0..19, in
bounds after the min_size check, and are gathered into the final record; the
length-mismatch check against total_length (source lines 142-144) runs after
the options step, before the record is built. The payload is the slice from
header_length on (source line 158), in bounds by the checks of the options
step. -/
def Ipv4Packet.from_bytes (b : List Nat) : RResult Ipv4Packet :=
  if b.length < Ipv4Packet.min_size then .err ("size error ...")
  else if (b.getD 0 0) >>> 4 ≠ 4 then .err ("size error ...")
  else
    unwrapD (ihl_of (b.getD 0 0)) fun ihl =>
    resCase (ipv4_parse_options b ihl) fun oh =>
    if b.length ≠ 256 * b.getD 2 0 + b.getD 3 0 then .err ("size error ...")
    else
      .ok
        { version_ihl := b.getD 0 0
          dscp_ecn := b.getD 1 0
          total_length := 256 * b.getD 2 0 + b.getD 3 0
          identification := 256 * b.getD 4 0 + b.getD 5 0
          flags_fragment_offset := 256 * b.getD 6 0 + b.getD 7 0
          time_to_live := b.getD 8 0
          protocol := b.getD 9 0
          header_checksum := 256 * b.getD 10 0 + b.getD 11 0
          src_ip := 16777216 * b.getD 12 0 + 65536 * b.getD 13 0
            + 256 * b.getD 14 0 + b.getD 15 0
          dst_ip := 16777216 * b.getD 16 0 + 65536 * b.getD 17 0
            + 256 * b.getD 18 0 + b.getD 19 0
          options := oh.1
          payload := b.drop oh.2 }

/-- Ipv6Packet::from_bytes, packet.rs lines 223-226: prints a warning and
invokes the unimplemented macro, so it panics on every input. -/
def Ipv6Packet.from_bytes (_ : List Nat) : RResult Ipv6Packet :=
  .panic ("not implemented")

/-- Packet::from_bytes, packet.rs lines 241-260: reads payload[0] with no
bounds check (a panic on the empty buffer), shifts out the high nibble and
matches it against 4 and 6; every other nibble yields the version error. -/
def Packet.from_bytes (b : List Nat) : RResult Packet :=
  match b with
  | [] => .panic ("index out of bounds")
  | b0 :: _ =>
    if b0 >>> 4 = 4 then
      resCase (Ipv4Packet.from_bytes b) fun p => .ok (Packet.V4 p)
    else if b0 >>> 4 = 6 then
      resCase (Ipv6Packet.from_bytes b) fun p => .ok (Packet.V6 p)
    else .err ("IP Version Error!")

/-- The version accessor, packet.rs lines 170-172. -/
def Ipv4Packet.version (p : Ipv4Packet) : Nat := p.version_ihl >>> 4

/-- The ihl accessor, packet.rs lines 173-175; some models the unwrapped
value, none a panic of the unwrap. -/
def Ipv4Packet.ihl (p : Ipv4Packet) : Option Nat := ihl_of p.version_ihl

/-- The dscp accessor, packet.rs lines 176-178. -/
def Ipv4Packet.dscp (p : Ipv4Packet) : Option Nat := dscp_of p.dscp_ecn

/-- The ecn accessor, packet.rs lines 179-181. -/
def Ipv4Packet.ecn (p : Ipv4Packet) : Option Nat := ecn_of p.dscp_ecn

/-- The flags accessor, packet.rs lines 185-187. -/
def Ipv4Packet.flags (p : Ipv4Packet) : Option Nat := flags_of p.flags_fragment_offset

/-- The fragment_offset accessor, packet.rs lines 188-190. -/
def Ipv4Packet.fragment_offset (p : Ipv4Packet) : Option Nat :=
  fragment_offset_of p.flags_fragment_offset

/-- A 21-byte version-4 buffer: IHL 5, total_length 21, all other fields
zero. It meets every condition of claim C2 yet the decoder rejects it. -/
def bufC2 : List Nat :=
  [0x45, 0, 0, 21, 0, 0, 0, 0, 0, 0, 0, 0, 0, 0, 0, 0, 0, 0, 0, 0, 0]

/-- The minimal 20-byte version-4 header: IHL 5, total_length 20, all other
fields zero (the boundary case of claim C3). -/
def bufC3 : List Nat :=
  [0x45, 0, 0, 20, 0, 0, 0, 0, 0, 0, 0, 0, 0, 0, 0, 0, 0, 0, 0, 0]

/-- A 20-byte buffer with version nibble 4 and IHL nibble 0, total_length
20: the decoder accepts it (claim C4). -/
def bufC4a : List Nat :=
  [0x40, 0, 0, 20, 0, 0, 0, 0, 0, 0, 0, 0, 0, 0, 0, 0, 0, 0, 0, 0]

/-- The packet the decoder returns on bufC4a. -/
def pktC4a : Ipv4Packet :=
  ⟨0x40, 0, 20, 0, 0, 0, 0, 0, 0, 0, none, []⟩

/-- A 22-byte buffer with version nibble 4, IHL nibble 5, total_length 22
and an options region declaring length 0: the decoder accepts it and stores
an options value even though IHL is not above 5 (claim C4). -/
def bufC4b : List Nat :=
  [0x45, 0, 0, 22, 0, 0, 0, 0, 0, 0, 0, 0, 0, 0, 0, 0, 0, 0, 0, 0, 0, 0]

/-- The packet the decoder returns on bufC4b. -/
def pktC4b : Ipv4Packet :=
  ⟨0x45, 0, 22, 0, 0, 0, 0, 0, 0, 0, some [], [0, 0]⟩

/-- A 20-byte version-4 buffer whose total_length field reads 19: the
negative scenario of claim C6 with IHL 5. -/
def bufC6a : List Nat :=
  [0x45, 0, 0, 19, 0, 0, 0, 0, 0, 0, 0, 0, 0, 0, 0, 0, 0, 0, 0, 0]

/-- A 20-byte version-4 buffer with IHL 4 and total_length field 19, which
reaches the length-mismatch check itself (claim C6). -/
def bufC6b : List Nat :=
  [0x44, 0, 0, 19, 0, 0, 0, 0, 0, 0, 0, 0, 0, 0, 0, 0, 0, 0, 0, 0]

/-- A 21-byte version-4 buffer with IHL 4 whose total_length field reads 20:
one byte longer than declared (claim C6). -/
def bufC6c : List Nat :=
  [0x44, 0, 0, 20, 0, 0, 0, 0, 0, 0, 0, 0, 0, 0, 0, 0, 0, 0, 0, 0, 0]

/-- A 20-byte version-4 buffer with IHL 4 and total_length 20, which the
decoder accepts (witness input for claim C6). -/
def bufC6w : List Nat :=
  [0x44, 0, 0, 20, 0, 0, 0, 0, 0, 0, 0, 0, 0, 0, 0, 0, 0, 0, 0, 0]

/-- The packet the decoder returns on bufC6w. -/
def pktC6w : Ipv4Packet :=
  ⟨0x44, 0, 20, 0, 0, 0, 0, 0, 0, 0, none, []⟩

/-- A stored header with version_ihl 0x45, dscp_ecn 0xB8 and
flags_fragment_offset 0x4000 (witness input for claim C7). -/
def pktC7 : Ipv4Packet :=
  ⟨0x45, 0xB8, 20, 0, 0x4000, 64, 6, 0, 0, 0, none, []⟩

/-- A stored header with version_ihl 0x45 and flags_fragment_offset 0x4321
(witness input for claim C8). -/
def pktC8 : Ipv4Packet :=
  ⟨0x45, 0, 20, 0, 0x4321, 0, 0, 0, 0, 0, none, []⟩

/-- A 20-byte version-4 buffer with IHL nibble 6: shorter than 22 bytes, so
the decoder rejects it whatever its other fields hold (witness input for
claim C9). -/
def bufC9 : List Nat :=
  [0x46, 0, 0, 20, 0, 0, 0, 0, 0, 0, 0, 0, 0, 0, 0, 0, 0, 0, 0, 0]

/-- A 20-byte version-4 buffer with IHL nibble 1 and total_length 20
(witness input for claim C10). -/
def bufC10 : List Nat :=
  [0x41, 0, 0, 20, 0, 0, 0, 0, 0, 0, 0, 0, 0, 0, 0, 0, 0, 0, 0, 0]

theorem from_str_radix_bin_eq (ds : List Nat) (h1 : ds ≠ []) (h2 : ∀ d ∈ ds, d < 2) :
    from_str_radix_bin ds = some (ds.foldl (fun a d => 2 * a + d) 0) := by
  unfold from_str_radix_bin
  rw [if_neg h1, if_pos h2]

theorem ihl_of_eq (x : Nat) : ihl_of x = some (x % 16) := by
  show from_str_radix_bin [x / 8 % 2, x / 4 % 2, x / 2 % 2, x % 2] = some (x % 16)
  rw [from_str_radix_bin_eq _ (by simp)
    (by
      intro d hd
      simp only [List.mem_cons, List.not_mem_nil, or_false] at hd
      rcases hd with rfl | rfl | rfl | rfl <;> omega)]
  simp only [List.foldl, Option.some.injEq]
  omega

theorem dscp_of_eq (x : Nat) (hx : x < 256) : dscp_of x = some (x / 4) := by
  show from_str_radix_bin
    [x / 128 % 2, x / 64 % 2, x / 32 % 2, x / 16 % 2, x / 8 % 2, x / 4 % 2] = some (x / 4)
  rw [from_str_radix_bin_eq _ (by simp)
    (by
      intro d hd
      simp only [List.mem_cons, List.not_mem_nil, or_false] at hd
      rcases hd with rfl | rfl | rfl | rfl | rfl | rfl <;> omega)]
  simp only [List.foldl, Option.some.injEq]
  omega

theorem ecn_of_eq (x : Nat) : ecn_of x = some (x % 4) := by
  show from_str_radix_bin [x / 2 % 2, x % 2] = some (x % 4)
  rw [from_str_radix_bin_eq _ (by simp)
    (by
      intro d hd
      simp only [List.mem_cons, List.not_mem_nil, or_false] at hd
      rcases hd with rfl | rfl <;> omega)]
  simp only [List.foldl, Option.some.injEq]
  omega

theorem flags_of_eq (x : Nat) (hx : x < 65536) : flags_of x = some (x / 8192) := by
  show from_str_radix_bin [x / 32768 % 2, x / 16384 % 2, x / 8192 % 2] = some (x / 8192)
  rw [from_str_radix_bin_eq _ (by simp)
    (by
      intro d hd
      simp only [List.mem_cons, List.not_mem_nil, or_false] at hd
      rcases hd with rfl | rfl | rfl <;> omega)]
  simp only [List.foldl, Option.some.injEq]
  omega

theorem fragment_offset_of_eq (x : Nat) : fragment_offset_of x = some (x % 8192) := by
  show from_str_radix_bin
    [x / 4096 % 2, x / 2048 % 2, x / 1024 % 2, x / 512 % 2, x / 256 % 2, x / 128 % 2,
     x / 64 % 2, x / 32 % 2, x / 16 % 2, x / 8 % 2, x / 4 % 2, x / 2 % 2, x % 2]
    = some (x % 8192)
  rw [from_str_radix_bin_eq _ (by simp)
    (by
      intro d hd
      simp only [List.mem_cons, List.not_mem_nil, or_false] at hd
      rcases hd with rfl | rfl | rfl | rfl | rfl | rfl | rfl | rfl | rfl | rfl | rfl | rfl | rfl
        <;> omega)]
  simp only [List.foldl, Option.some.injEq]
  have h12 : x % 8192 = 4096 * (x / 4096 % 2) + x % 4096 := by omega
  have h11 : x % 4096 = 2048 * (x / 2048 % 2) + x % 2048 := by omega
  have h10 : x % 2048 = 1024 * (x / 1024 % 2) + x % 1024 := by omega
  have h9 : x % 1024 = 512 * (x / 512 % 2) + x % 512 := by omega
  have h8 : x % 512 = 256 * (x / 256 % 2) + x % 256 := by omega
  have h7 : x % 256 = 128 * (x / 128 % 2) + x % 128 := by omega
  have h6 : x % 128 = 64 * (x / 64 % 2) + x % 64 := by omega
  have h5 : x % 64 = 32 * (x / 32 % 2) + x % 32 := by omega
  have h4 : x % 32 = 16 * (x / 16 % 2) + x % 16 := by omega
  have h3 : x % 16 = 8 * (x / 8 % 2) + x % 8 := by omega
  have h2 : x % 8 = 4 * (x / 4 % 2) + x % 4 := by omega
  have h1 : x % 4 = 2 * (x / 2 % 2) + x % 2 := by omega
  rw [h12, h11, h10, h9, h8, h7, h6, h5, h4, h3, h2, h1]
  ring

theorem shiftLeft_lor_eq (f o n : Nat) (h : o < 2 ^ n) : f <<< n ||| o = f * 2 ^ n + o := by
  rw [Nat.shiftLeft_eq, Nat.mul_comm f (2 ^ n)]
  exact (Nat.mul_add_lt_is_or h f).symm

theorem resCase_ok {α β : Type} (a : α) (f : α → RResult β) : resCase (.ok a) f = f a := rfl

theorem resCase_map {α β : Type} (x : RResult α) (f : α → β) :
    resCase x (fun a => .ok (f a)) = RResult.map f x := by
  cases x <;> rfl

theorem unwrapD_some {α β : Type} (v : α) (f : α → RResult β) : unwrapD (some v) f = f v := rfl

theorem ipv4_parse_options_lt5 (b : List Nat) (ihl : Nat) (h : ihl < 5) :
    ipv4_parse_options b ihl = .ok (none, 20) := by
  unfold ipv4_parse_options
  rw [if_neg (by omega)]

theorem ipv4_parse_options_short (b : List Nat) (ihl : Nat) (h5 : 5 ≤ ihl)
    (hlen : b.length < 22) : ipv4_parse_options b ihl = .err ("size error ...") := by
  unfold ipv4_parse_options
  rw [if_pos h5, if_pos (by unfold Ipv4Packet.min_size; omega)]

theorem ipv4_parse_options_opts_err (b : List Nat) (ihl : Nat) (e : String) (h5 : 5 ≤ ihl)
    (hlen : ¬ b.length < 22)
    (hE : Options.from_bytes (b.drop 20) = .err e) :
    ipv4_parse_options b ihl = .err e := by
  unfold ipv4_parse_options
  rw [if_pos h5, if_neg (by unfold Ipv4Packet.min_size; omega), hE]

theorem ipv4_parse_options_ok_cases (b : List Nat) (ihl : Nat) (o : Option (List Nat))
    (hl : Nat) (h : ipv4_parse_options b ihl = .ok (o, hl)) :
    (5 ≤ ihl ∧ ∃ opts, o = some opts ∧ hl = 20 + opts.length) ∨
    (ihl < 5 ∧ o = none ∧ hl = 20) := by
  unfold ipv4_parse_options at h
  split at h
  · rename_i h5
    split at h
    · simp at h
    · split at h
      · rename_i opts hO
        split at h
        · simp at h
        · left
          rw [RResult.ok.injEq, Prod.mk.injEq] at h
          exact ⟨h5, opts, h.1.symm, h.2.symm⟩
      · simp at h
      · simp at h
  · rename_i h5
    right
    rw [RResult.ok.injEq, Prod.mk.injEq] at h
    exact ⟨by omega, h.1.symm, h.2.symm⟩

theorem ipv4_from_bytes_ok_elim (b : List Nat) (p : Ipv4Packet)
    (h : Ipv4Packet.from_bytes b = .ok p) :
    20 ≤ b.length ∧ (b.getD 0 0) >>> 4 = 4 ∧
    b.length = 256 * b.getD 2 0 + b.getD 3 0 ∧
    ∃ o hl, ipv4_parse_options b (b.getD 0 0 % 16) = .ok (o, hl) ∧
      p = ⟨b.getD 0 0, b.getD 1 0, 256 * b.getD 2 0 + b.getD 3 0,
           256 * b.getD 4 0 + b.getD 5 0, 256 * b.getD 6 0 + b.getD 7 0,
           b.getD 8 0, b.getD 9 0, 256 * b.getD 10 0 + b.getD 11 0,
           16777216 * b.getD 12 0 + 65536 * b.getD 13 0 + 256 * b.getD 14 0 + b.getD 15 0,
           16777216 * b.getD 16 0 + 65536 * b.getD 17 0 + 256 * b.getD 18 0 + b.getD 19 0,
           o, b.drop hl⟩ := by
  unfold Ipv4Packet.from_bytes at h
  rw [ihl_of_eq, unwrapD_some] at h
  by_cases hlen : b.length < Ipv4Packet.min_size
  · rw [if_pos hlen] at h
    simp at h
  · rw [if_neg hlen] at h
    by_cases hver : (b.getD 0 0) >>> 4 ≠ 4
    · rw [if_pos hver] at h
      simp at h
    · rw [if_neg hver] at h
      cases hPO : ipv4_parse_options b (b.getD 0 0 % 16) with
      | err e =>
        rw [hPO] at h
        simp [resCase] at h
      | panic m =>
        rw [hPO] at h
        simp [resCase] at h
      | ok oh =>
        rw [hPO, resCase_ok] at h
        by_cases hTL : b.length ≠ 256 * b.getD 2 0 + b.getD 3 0
        · rw [if_pos hTL] at h
          simp at h
        · rw [if_neg hTL] at h
          rw [RResult.ok.injEq] at h
          refine ⟨by unfold Ipv4Packet.min_size at hlen; omega, not_not.mp hver,
            not_not.mp hTL, oh.1, oh.2, by rw [Prod.mk.eta], h.symm⟩

theorem ipv4_from_bytes_eval (b : List Nat) (oh : Option (List Nat) × Nat)
    (h1 : ¬ b.length < 20) (h2 : (b.getD 0 0) >>> 4 = 4)
    (hPO : ipv4_parse_options b (b.getD 0 0 % 16) = .ok oh)
    (h3 : b.length = 256 * b.getD 2 0 + b.getD 3 0) :
    Ipv4Packet.from_bytes b =
      .ok ⟨b.getD 0 0, b.getD 1 0, 256 * b.getD 2 0 + b.getD 3 0,
           256 * b.getD 4 0 + b.getD 5 0, 256 * b.getD 6 0 + b.getD 7 0,
           b.getD 8 0, b.getD 9 0, 256 * b.getD 10 0 + b.getD 11 0,
           16777216 * b.getD 12 0 + 65536 * b.getD 13 0 + 256 * b.getD 14 0 + b.getD 15 0,
           16777216 * b.getD 16 0 + 65536 * b.getD 17 0 + 256 * b.getD 18 0 + b.getD 19 0,
           oh.1, b.drop oh.2⟩ := by
  unfold Ipv4Packet.from_bytes
  rw [ihl_of_eq, unwrapD_some,
    if_neg (show ¬ b.length < Ipv4Packet.min_size by unfold Ipv4Packet.min_size; omega),
    if_neg (show ¬ ((b.getD 0 0) >>> 4 ≠ 4) from fun hne => hne h2), hPO]
  simp only [resCase_ok]
  rw [if_neg (show ¬ (b.length ≠ 256 * b.getD 2 0 + b.getD 3 0) by omega)]

theorem ipv4_from_bytes_err_short (b : List Nat) (h : b.length < 20) :
    Ipv4Packet.from_bytes b = .err ("size error ...") := by
  unfold Ipv4Packet.from_bytes
  rw [if_pos (show b.length < Ipv4Packet.min_size by unfold Ipv4Packet.min_size; omega)]

theorem ipv4_from_bytes_err_opts (b : List Nat) (e : String)
    (h1 : ¬ b.length < 20) (h2 : (b.getD 0 0) >>> 4 = 4)
    (hPO : ipv4_parse_options b (b.getD 0 0 % 16) = .err e) :
    Ipv4Packet.from_bytes b = .err e := by
  unfold Ipv4Packet.from_bytes
  rw [ihl_of_eq, unwrapD_some,
    if_neg (show ¬ b.length < Ipv4Packet.min_size by unfold Ipv4Packet.min_size; omega),
    if_neg (show ¬ ((b.getD 0 0) >>> 4 ≠ 4) from fun hne => hne h2), hPO]
  rfl

/-- Claim C1: the claim that no decode entry point ever panics on
attacker-controlled input is false on the code. Packet::from_bytes reads
payload[0] with no bounds check, so it panics on the empty buffer; and
Ipv6Packet::from_bytes invokes the unimplemented macro, so it panics on
every input, including through the version-6 arm of the Packet dispatch. -/
theorem claim_C1_decode_panics :
    Packet.from_bytes [] = RResult.panic ("index out of bounds") ∧
    Ipv6Packet.from_bytes [0x60] = RResult.panic ("not implemented") ∧
    Packet.from_bytes [0x60] = RResult.panic ("not implemented") := by
  refine ⟨rfl, rfl, ?_⟩
  rfl

/-- Claim C2: the claimed decode property is false on the code. bufC2 is a
21-byte buffer meeting every stated condition (length at least 20, version
nibble 4, total_length equal to the buffer length, IHL times 4 at most the
buffer length), yet Ipv4Packet::from_bytes rejects it, because with IHL at
least 5 the decoder demands at least min_size + 2 = 22 bytes. -/
theorem claim_C2_property_fails_on_code :
    20 ≤ bufC2.length ∧ bufC2.getD 0 0 >>> 4 = 4 ∧
    256 * bufC2.getD 2 0 + bufC2.getD 3 0 = bufC2.length ∧
    (bufC2.getD 0 0 % 16) * 4 ≤ bufC2.length ∧
    Ipv4Packet.from_bytes bufC2 = .err ("size error ...") := by
  decide

/-- Claim C3: the claimed boundary behaviour is false on the code. bufC3 is
the minimal 20-byte header with version nibble 4, IHL 5 and total_length 20,
but the decoder enters the options branch already when IHL equals 5 and
demands at least 22 bytes, so it rejects bufC3 instead of decoding it. -/
theorem claim_C3_minimal_header_rejected :
    bufC3.length = 20 ∧ bufC3.getD 0 0 = 0x45 ∧
    256 * bufC3.getD 2 0 + bufC3.getD 3 0 = 20 ∧
    Ipv4Packet.from_bytes bufC3 = .err ("size error ...") := by
  decide

/-- Claim C4: counterexample. The decoder accepts bufC4a, whose IHL nibble
is 0, refuting the part of the claim that every decoded header has IHL at
least 5; and it accepts bufC4b with IHL exactly 5 while storing an options
value, refuting options-present-iff-IHL-above-5. -/
theorem claim_C4_counterexample :
    Ipv4Packet.from_bytes bufC4a = .ok pktC4a ∧ pktC4a.ihl = some 0 ∧
    pktC4a.options = none ∧
    Ipv4Packet.from_bytes bufC4b = .ok pktC4b ∧ pktC4b.ihl = some 5 ∧
    pktC4b.options = some [] := by
  decide

/-- Claim C4 as amended: every Ipv4Packet returned by a successful
Ipv4Packet::from_bytes has options present if and only if its IHL field is
at least 5; when options are absent the payload starts at byte offset 20,
and when options are present the payload starts at byte offset
20 + options.len(). No lower bound on IHL and no relation between the
options length and IHL times 4 is enforced. -/
theorem claim_C4_amended_options_invariant (b : List Nat) (p : Ipv4Packet)
    (h : Ipv4Packet.from_bytes b = .ok p) :
    (p.options.isSome = true ↔ 5 ≤ p.version_ihl % 16) ∧
    (p.options = none → p.payload = b.drop 20) ∧
    (∀ o, p.options = some o → p.payload = b.drop (20 + o.length)) := by
  obtain ⟨h20, hv, htl, o, hl, hPO, rfl⟩ := ipv4_from_bytes_ok_elim b p h
  rcases ipv4_parse_options_ok_cases b _ o hl hPO with ⟨h5, opts, rfl, rfl⟩ | ⟨h5, rfl, rfl⟩
  · refine ⟨by simpa using h5, ?_, ?_⟩
    · intro hn
      simp at hn
    · intro o' ho'
      simp only [Option.some.injEq] at ho'
      subst ho'
      rfl
  · refine ⟨?_, ?_, ?_⟩
    · simp only [Option.isSome_none, Bool.false_eq_true, false_iff]
      omega
    · intro _
      rfl
    · intro o' ho'
      simp at ho'

/-- Claim C4 witness: the amended invariant applied to the concrete decode
of bufC4a. -/
theorem claim_C4_witness : pktC4a.payload = bufC4a.drop 20 :=
  (claim_C4_amended_options_invariant bufC4a pktC4a (by decide)).2.1 (by decide)

theorem packet_from_bytes_cons (b0 : Nat) (t : List Nat) :
    Packet.from_bytes (b0 :: t) =
      if b0 >>> 4 = 4 then
        resCase (Ipv4Packet.from_bytes (b0 :: t)) fun p => .ok (Packet.V4 p)
      else if b0 >>> 4 = 6 then
        resCase (Ipv6Packet.from_bytes (b0 :: t)) fun p => .ok (Packet.V6 p)
      else .err ("IP Version Error!") := rfl

/-- Claim C5: Packet::from_bytes dispatches solely on the high nibble of
byte 0 of a nonempty buffer: nibble 4 yields the Ipv4Packet::from_bytes
outcome with Ok wrapped in V4, nibble 6 yields the Ipv6Packet::from_bytes
outcome with Ok wrapped in V6, and any other nibble yields the version
error without either header decoder being consulted. -/
theorem claim_C5_dispatch (b : List Nat) (hne : b ≠ []) :
    (b.getD 0 0 >>> 4 = 4 →
      Packet.from_bytes b = RResult.map Packet.V4 (Ipv4Packet.from_bytes b)) ∧
    (b.getD 0 0 >>> 4 = 6 →
      Packet.from_bytes b = RResult.map Packet.V6 (Ipv6Packet.from_bytes b)) ∧
    (b.getD 0 0 >>> 4 ≠ 4 → b.getD 0 0 >>> 4 ≠ 6 →
      Packet.from_bytes b = .err ("IP Version Error!")) := by
  match b, hne with
  | b0 :: t, _ =>
    simp only [List.getD_cons_zero]
    rw [packet_from_bytes_cons]
    refine ⟨?_, ?_, ?_⟩
    · intro h4
      rw [if_pos h4, resCase_map]
    · intro h6
      rw [if_neg (show ¬ b0 >>> 4 = 4 by omega), if_pos h6, resCase_map]
    · intro h4 h6
      rw [if_neg h4, if_neg h6]

/-- Claim C5 witness: the dispatch theorem applied to a one-byte buffer with
version nibble 7. -/
theorem claim_C5_witness : Packet.from_bytes [0x70] = .err ("IP Version Error!") :=
  (claim_C5_dispatch [0x70] (by decide)).2.2 (by decide) (by decide)

/-- Claim C6: every successful Ipv4Packet::from_bytes returns a header whose
total_length equals the buffer length, which in turn equals the big-endian
field at bytes 2..4; and the decoder rejects bufC6a (the spec scenario with
total_length field 19 on a 20-byte buffer), bufC6b (the same mismatch
reaching the length check itself, with IHL 4), and bufC6c (a buffer one
byte longer than its declared total_length). All Ipv4 decode errors carry
the same io::Error value, so the length-mismatch failure is this error. -/
theorem claim_C6_length_mismatch :
    (∀ b p, Ipv4Packet.from_bytes b = .ok p →
      p.total_length = b.length ∧ b.length = 256 * b.getD 2 0 + b.getD 3 0) ∧
    Ipv4Packet.from_bytes bufC6a = .err ("size error ...") ∧
    Ipv4Packet.from_bytes bufC6b = .err ("size error ...") ∧
    Ipv4Packet.from_bytes bufC6c = .err ("size error ...") := by
  refine ⟨?_, by decide, by decide, by decide⟩
  intro b p h
  obtain ⟨h20, hv, htl, o, hl, hPO, rfl⟩ := ipv4_from_bytes_ok_elim b p h
  exact ⟨htl.symm, htl⟩

/-- Claim C6 witness: the length equalities on the concrete successful
decode of bufC6w. -/
theorem claim_C6_witness :
    pktC6w.total_length = bufC6w.length ∧
    bufC6w.length = 256 * bufC6w.getD 2 0 + bufC6w.getD 3 0 :=
  claim_C6_length_mismatch.1 bufC6w pktC6w (by decide)

/-- Claim C7: the binary-string-and-slice bit extraction of the accessors
agrees with direct shift and mask arithmetic on the stored byte and word
fields, and none of these accessors can panic (each returns some value,
never the none that the unwrap would turn into a panic). -/
theorem claim_C7_accessors_shift_mask (p : Ipv4Packet)
    (h8 : p.dscp_ecn < 256) (h16 : p.flags_fragment_offset < 65536) :
    p.ihl = some (p.version_ihl &&& 15) ∧
    p.dscp = some (p.dscp_ecn >>> 2) ∧
    p.ecn = some (p.dscp_ecn &&& 3) ∧
    p.flags = some (p.flags_fragment_offset >>> 13) ∧
    p.fragment_offset = some (p.flags_fragment_offset &&& 8191) := by
  refine ⟨?_, ?_, ?_, ?_, ?_⟩
  · have h := Nat.and_pow_two_sub_one_eq_mod p.version_ihl 4
    norm_num at h
    rw [Ipv4Packet.ihl, ihl_of_eq, ← h]
  · rw [Ipv4Packet.dscp, dscp_of_eq _ h8, Nat.shiftRight_eq_div_pow]
  · have h := Nat.and_pow_two_sub_one_eq_mod p.dscp_ecn 2
    norm_num at h
    rw [Ipv4Packet.ecn, ecn_of_eq, ← h]
  · rw [Ipv4Packet.flags, flags_of_eq _ h16, Nat.shiftRight_eq_div_pow]
  · have h := Nat.and_pow_two_sub_one_eq_mod p.flags_fragment_offset 13
    norm_num at h
    rw [Ipv4Packet.fragment_offset, fragment_offset_of_eq, ← h]

/-- Claim C7 witness: the accessor equalities at the concrete header pktC7. -/
theorem claim_C7_witness :
    pktC7.ihl = some (pktC7.version_ihl &&& 15) ∧
    pktC7.dscp = some (pktC7.dscp_ecn >>> 2) ∧
    pktC7.ecn = some (pktC7.dscp_ecn &&& 3) ∧
    pktC7.flags = some (pktC7.flags_fragment_offset >>> 13) ∧
    pktC7.fragment_offset = some (pktC7.flags_fragment_offset &&& 8191) :=
  claim_C7_accessors_shift_mask pktC7 (by decide) (by decide)

/-- Claim C8: the bit-field splits round-trip. Shifting the version accessor
back up by 4 and or-ing the parsed IHL low nibble reconstructs the stored
version_ihl byte, and shifting the parsed 3-bit flags up by 13 and or-ing
the parsed 13-bit fragment offset reconstructs the stored 16-bit field. -/
theorem claim_C8_split_roundtrip (p : Ipv4Packet) (_h8 : p.version_ihl < 256)
    (h16 : p.flags_fragment_offset < 65536) :
    (∀ l, p.ihl = some l → p.version <<< 4 ||| l = p.version_ihl) ∧
    (∀ f o, p.flags = some f → p.fragment_offset = some o →
      f <<< 13 ||| o = p.flags_fragment_offset) := by
  constructor
  · intro l hl
    rw [Ipv4Packet.ihl, ihl_of_eq, Option.some.injEq] at hl
    subst hl
    have hlt : p.version_ihl % 16 < 2 ^ 4 := by
      have h2 : (2 : Nat) ^ 4 = 16 := by norm_num
      rw [h2]
      omega
    rw [Ipv4Packet.version, shiftLeft_lor_eq _ _ _ hlt, Nat.shiftRight_eq_div_pow]
    have h2 : (2 : Nat) ^ 4 = 16 := by norm_num
    rw [h2]
    omega
  · intro f o hf ho
    rw [Ipv4Packet.flags, flags_of_eq _ h16, Option.some.injEq] at hf
    rw [Ipv4Packet.fragment_offset, fragment_offset_of_eq, Option.some.injEq] at ho
    subst hf
    subst ho
    have hlt : p.flags_fragment_offset % 8192 < 2 ^ 13 := by
      have h2 : (2 : Nat) ^ 13 = 8192 := by norm_num
      rw [h2]
      omega
    rw [shiftLeft_lor_eq _ _ _ hlt]
    have h2 : (2 : Nat) ^ 13 = 8192 := by norm_num
    rw [h2]
    omega

/-- Claim C8 witness: the split round-trips at the concrete header pktC8,
whose parsed IHL is 5, parsed flags 2 and parsed fragment offset 801. -/
theorem claim_C8_witness :
    pktC8.version <<< 4 ||| 5 = pktC8.version_ihl ∧
    2 <<< 13 ||| 801 = pktC8.flags_fragment_offset :=
  ⟨(claim_C8_split_roundtrip pktC8 (by decide) (by decide)).1 5 (by decide),
   (claim_C8_split_roundtrip pktC8 (by decide) (by decide)).2 2 801 (by decide) (by decide)⟩

/-- Claim C9 (implicit behaviour the code actually has): whenever the
version nibble is 4 and the IHL nibble is at least 5, Ipv4Packet::from_bytes
demands at least min_size + 2 = 22 bytes, so every such buffer of length 20
or 21 is rejected regardless of its other fields; and on buffers of length
at least 22 it always consults the options parser on the bytes from offset
20, propagating the error the parser returns. -/
theorem claim_C9_min22_and_options_always (b : List Nat)
    (hv : b.getD 0 0 >>> 4 = 4) (hihl : 5 ≤ b.getD 0 0 % 16) :
    (20 ≤ b.length → b.length < 22 →
      Ipv4Packet.from_bytes b = .err ("size error ...")) ∧
    (∀ e, 22 ≤ b.length → Options.from_bytes (b.drop 20) = .err e →
      Ipv4Packet.from_bytes b = .err e) := by
  constructor
  · intro h20 h22
    exact ipv4_from_bytes_err_opts b _ (by omega) hv
      (ipv4_parse_options_short b _ hihl h22)
  · intro e h22 hE
    exact ipv4_from_bytes_err_opts b _ (by omega) hv
      (ipv4_parse_options_opts_err b _ e hihl (by omega) hE)

/-- Claim C9 witness: the 20-byte buffer bufC9 with version nibble 4 and
IHL nibble 6 is rejected. -/
theorem claim_C9_witness : Ipv4Packet.from_bytes bufC9 = .err ("size error ...") :=
  (claim_C9_min22_and_options_always bufC9 (by decide) (by decide)).1
    (by decide) (by decide)

/-- Claim C10 (implicit behaviour the code actually has): an IHL nibble
below 5 is never rejected. With version nibble 4 and IHL below 5, decoding
succeeds exactly when the buffer is at least 20 bytes long and its length
equals the big-endian total_length field, and every such success carries no
options and the payload from byte offset 20 on. -/
theorem claim_C10_low_ihl_accepted (b : List Nat)
    (hv : b.getD 0 0 >>> 4 = 4) (hihl : b.getD 0 0 % 16 < 5) :
    ((Ipv4Packet.from_bytes b).isOk = true ↔
      20 ≤ b.length ∧ b.length = 256 * b.getD 2 0 + b.getD 3 0) ∧
    (∀ p, Ipv4Packet.from_bytes b = .ok p →
      p.options = none ∧ p.payload = b.drop 20) := by
  constructor
  · constructor
    · intro hOk
      cases hF : Ipv4Packet.from_bytes b with
      | ok p =>
        obtain ⟨h20, _, htl, _⟩ := ipv4_from_bytes_ok_elim b p hF
        exact ⟨h20, htl⟩
      | err e =>
        rw [hF] at hOk
        simp [RResult.isOk] at hOk
      | panic m =>
        rw [hF] at hOk
        simp [RResult.isOk] at hOk
    · rintro ⟨h20, htl⟩
      rw [ipv4_from_bytes_eval b (none, 20) (by omega) hv
        (ipv4_parse_options_lt5 b _ hihl) htl]
      rfl
  · intro p hp
    obtain ⟨h20, _, htl, o, hl, hPO, rfl⟩ := ipv4_from_bytes_ok_elim b p hp
    rcases ipv4_parse_options_ok_cases b _ o hl hPO with ⟨h5, _, _, _⟩ | ⟨_, rfl, rfl⟩
    · omega
    · exact ⟨rfl, rfl⟩

/-- Claim C10 witness: the 20-byte buffer bufC10 with IHL nibble 1 and
matching total_length decodes successfully. -/
theorem claim_C10_witness : (Ipv4Packet.from_bytes bufC10).isOk = true :=
  (claim_C10_low_ihl_accepted bufC10 (by decide) (by decide)).1.mpr (by decide)
